import Mathlib

/-!
Shallow embedding of the MusicXML timeline-reconstruction core:
`src/mxp/measure.py` (class `Measure`) and `src/magenta/main.py`
(class `MusicXMLParserState`, class `MusicXMLDocument`).

Python exact arithmetic conventions: Python 3 true division and `Fraction`
are embedded as `ℚ`; Python ints as `Int`.  XML elements are embedded as
inductive types carrying exactly the attributes and children the parser
reads.  Fallible code returns `Except MXPError`.

Collaborator classes whose source files are not part of the shown core
(`Tempo`, `Note`, `TimeSignature`, `KeySignature`, `ChordSymbol`, `Part`,
`mxp/constants.py`) are modelled from the spec; each such definition is
marked `Modelled from the spec:` in its doc comment.
-/

namespace MXP

/-- Modelled from the spec: `mxp/constants.py` is not part of the shown core.
`STANDARD_PPQ` is the MIDI pulses-per-quarter constant; its exact value
cancels in every formula of the core (`d * (PPQ/divisions) / PPQ * spq`),
so any positive value is faithful. -/
def STANDARD_PPQ : ℚ := 220

/-- Embeds `mxp/time_signature.py`'s `TimeSignature` record as used by
`measure.py`: a numerator/denominator pair plus the positions at which it
takes effect (fields per spec §3). -/
structure TimeSignature where
  numerator : Int
  denominator : Int
  time_position : ℚ
  xml_position : Int
deriving DecidableEq

/-- Modelled from the spec: `mxp/key_signature.py` is not part of the shown
core.  A key-signature event in circle-of-fifths units. -/
structure KeySignature where
  key : Int
  time_position : ℚ
  xml_position : Int
deriving DecidableEq

/-- Modelled from the spec: `mxp/tempo.py` is not part of the shown core.
A tempo-change event: qpm, positions, and the divisions value captured
from Parser State when the tempo was created (spec §3: "divisions-at-time
(captured from state)"). -/
structure Tempo where
  qpm : ℚ
  time_position : ℚ
  xml_position : Int
  divisions_at_time : Int
deriving DecidableEq

/-- Modelled from the spec: `mxp/chord_symbol.py` is not part of the shown
core.  A harmony annotation captured at the current state positions. -/
structure ChordSymbol where
  time_position : ℚ
  xml_position : Int
deriving DecidableEq

/-- Modelled from the spec: `mxp/note.py` is not part of the shown core.
Only the fields `measure.py` and `main.py` read are embedded: voice,
chord membership, duration, and the note's positions
(`note.note_duration.duration` / `.xml_position` / `.time_position`
are flattened into the note record). -/
structure Note where
  voice : Int
  is_in_chord : Bool
  duration : Int
  time_position : ℚ
  xml_position : Int
deriving DecidableEq

/-- Embeds `MusicXMLParserState` (src/magenta/main.py lines 47-91). -/
structure MusicXMLParserState where
  divisions : Int
  qpm : ℚ
  seconds_per_quarter : ℚ
  time_position : ℚ
  xml_position : Int
  velocity : Int
  transpose : Int
  time_signature : Option TimeSignature
  previous_note : Option Note
deriving DecidableEq

/-- Default-initialised parser state (src/magenta/main.py lines 50-91). -/
def MusicXMLParserState.init : MusicXMLParserState :=
  { divisions := 1
    qpm := 120
    seconds_per_quarter := 1/2
    time_position := 0
    xml_position := 0
    velocity := 64
    transpose := 0
    time_signature := none
    previous_note := none }

/-- Embeds a `<sound>` element as read by `_parse_direction`: its optional
`tempo` and `dynamics` attributes (already numerically decoded). -/
structure XmlSound where
  tempo : Option ℚ
  dynamics : Option Int
deriving DecidableEq

/-- Embeds a child of a `<direction>` element: only `<sound>` children are
inspected by `_parse_direction`; everything else is skipped. -/
inductive DirChild where
  | sound (x : XmlSound)
  | other
deriving DecidableEq

/-- Embeds a child of an `<attributes>` element, carrying the data
`_parse_attributes` reads.  For `divisions`, `int(child.text)` either
yields an integer or raises `ValueError`; the already-attempted conversion
is embedded as `Option Int` (`none` = non-integer text). -/
inductive AttrChild where
  | divisions (text : Option Int)
  | key (fifths : Int)
  | time (num den : Int)
  | transposeBy (chromatic : Int)
  | other
deriving DecidableEq

/-- Embeds a `<barline>` element as read by `_parse_barline`: the
`bar-style` child's text and, when a `<repeat>` child is present, its
`direction` attribute. -/
structure XmlBarline where
  bar_style : String
  repeat_direction : Option String
deriving DecidableEq

/-- Embeds a child of a `<measure>` element, carrying the data the
corresponding `Measure._parse_*` handler reads. -/
inductive MeasureChild where
  | attributes (children : List AttrChild)
  | backup (duration : Int)
  | barline (b : XmlBarline)
  | direction (children : List DirChild)
  | forward (duration : Int)
  | harmony
  | note (voice : Int) (is_in_chord : Bool) (duration : Int)
  | other
deriving DecidableEq

/-- Embeds class `Measure`'s record fields (src/mxp/measure.py lines 14-30). -/
structure Measure where
  notes : List Note
  chord_symbols : List ChordSymbol
  tempos : List Tempo
  time_signature : Option TimeSignature
  key_signature : Option KeySignature
  barline : Option String
  repeat_mark : Option String
  duration : Int
  start_time_position : ℚ
  start_xml_position : Int
deriving DecidableEq

/-- Errors raised by the embedded measure parser.
`multipleTimeSignature` embeds `MultipleTimeSignatureException`
(measure.py line 104); `valueError` embeds Python's `ValueError` from
`int()` on non-integer text; `attributeError` embeds the `AttributeError`
from reading `.numerator` of `None` (measure.py line 196, reachable only
in the impossible state-none/measure-some combination); `zeroDivision`
embeds `ZeroDivisionError` from `Fraction(n, 0)` (measure.py line 183,
195 or 221). -/
inductive MXPError where
  | multipleTimeSignature
  | valueError
  | attributeError
  | zeroDivision
deriving DecidableEq

/-- Embeds `Measure._parse_barline` (src/mxp/measure.py lines 71-89).
Note the `elif`: the `<repeat>` child is consulted only when the
bar-style is neither `light-light` nor `light-heavy`. -/
def Measure.parseBarline (m : Measure) (b : XmlBarline) : Measure :=
  if b.bar_style = "light-light" then { m with barline := some "double" }
  else if b.bar_style = "light-heavy" then { m with barline := some "final" }
  else
    match b.repeat_direction with
    | some attrib =>
        if attrib = "forward" then { m with repeat_mark := some "start" }
        else if attrib = "backword" then { m with repeat_mark := some "end" }
        else m
    | none => m

/-- Embeds one iteration of the `_parse_attributes` loop body
(src/mxp/measure.py lines 94-123). -/
def Measure.parseAttrChild (m : Measure) (s : MusicXMLParserState) :
    AttrChild → Except MXPError (Measure × MusicXMLParserState)
  | .divisions t =>
      match t with
      | none => .error .valueError
      | some v => .ok (m, { s with divisions := v })
  | .key fifths =>
      let ks : KeySignature :=
        { key := fifths, time_position := s.time_position,
          xml_position := s.xml_position }
      .ok ({ m with key_signature := some ks }, s)
  | .time num den =>
      match m.time_signature with
      | none =>
          let ts : TimeSignature :=
            { numerator := num, denominator := den,
              time_position := s.time_position, xml_position := s.xml_position }
          .ok ({ m with time_signature := some ts },
               { s with time_signature := some ts })
      | some _ => .error .multipleTimeSignature
  | .transposeBy chromatic =>
      let s' := { s with transpose := chromatic }
      match m.key_signature with
      | none => .ok (m, s')
      | some ks =>
          let key_transpose := Int.fmod (chromatic * (-5)) 12
          let new_key := ks.key + key_transpose
          let new_key := if 6 < new_key then Int.fmod new_key (-6) else new_key
          .ok ({ m with key_signature := some { ks with key := new_key } }, s')
  | .other => .ok (m, s)

/-- Embeds the `_parse_attributes` loop (src/mxp/measure.py lines 94-123). -/
def Measure.parseAttributes (m : Measure) (s : MusicXMLParserState) :
    List AttrChild → Except MXPError (Measure × MusicXMLParserState)
  | [] => .ok (m, s)
  | c :: cs => do
      let (m', s') ← Measure.parseAttrChild m s c
      Measure.parseAttributes m' s' cs

/-- Embeds `Measure._parse_backup` (src/mxp/measure.py lines 125-141). -/
def Measure.parseBackup (s : MusicXMLParserState) (backup_duration : Int) :
    MusicXMLParserState :=
  let midi_ticks : ℚ := (backup_duration : ℚ) * (STANDARD_PPQ / (s.divisions : ℚ))
  let seconds : ℚ := midi_ticks / STANDARD_PPQ * s.seconds_per_quarter
  { s with time_position := s.time_position - seconds
           xml_position := s.xml_position - backup_duration }

/-- Embeds `Measure._parse_forward` (src/mxp/measure.py lines 155-171). -/
def Measure.parseForward (s : MusicXMLParserState) (forward_duration : Int) :
    MusicXMLParserState :=
  let midi_ticks : ℚ := (forward_duration : ℚ) * (STANDARD_PPQ / (s.divisions : ℚ))
  let seconds : ℚ := midi_ticks / STANDARD_PPQ * s.seconds_per_quarter
  { s with time_position := s.time_position + seconds
           xml_position := s.xml_position + forward_duration }

/-- Embeds `Measure._parse_direction` (src/mxp/measure.py lines 143-153):
only a `<sound>` child with a `tempo` attribute has any effect; the
`dynamics` attribute is read only inside the tempo branch. -/
def Measure.parseDirection (m : Measure) (s : MusicXMLParserState) :
    List DirChild → Measure × MusicXMLParserState
  | [] => (m, s)
  | .other :: cs => Measure.parseDirection m s cs
  | .sound x :: cs =>
      match x.tempo with
      | none => Measure.parseDirection m s cs
      | some q =>
          let tempo : Tempo :=
            { qpm := q, time_position := s.time_position,
              xml_position := s.xml_position, divisions_at_time := s.divisions }
          let s1 := { s with qpm := tempo.qpm,
                             seconds_per_quarter := 60 / tempo.qpm }
          let s2 :=
            match x.dynamics with
            | some v => { s1 with velocity := v }
            | none => s1
          Measure.parseDirection { m with tempos := m.tempos ++ [tempo] } s2 cs

/-- Modelled from the spec: the note decoder (`mxp/note.py`) is an external
collaborator (spec §6: `build_note` reads/writes `previous_note` and
`time_position`).  A non-chord note advances both position clocks by its
duration (same tick-to-seconds conversion as backup/forward); a chord
note leaves the clocks unchanged.  The pending-direction queue is
attached to the note by the real decoder and is irrelevant to the core's
timing state, so it is accepted and ignored here. -/
def Note.build (s : MusicXMLParserState) (_pending : List (List DirChild))
    (voice : Int) (is_in_chord : Bool) (dur : Int) :
    Note × MusicXMLParserState :=
  let note : Note :=
    { voice := voice, is_in_chord := is_in_chord, duration := dur,
      time_position := s.time_position, xml_position := s.xml_position }
  let s' :=
    if is_in_chord then s
    else
      { s with
          time_position := s.time_position +
            (dur : ℚ) * (STANDARD_PPQ / (s.divisions : ℚ)) / STANDARD_PPQ
              * s.seconds_per_quarter
          xml_position := s.xml_position + dur }
  (note, s')

/-- Embeds one iteration of the `Measure._parse` dispatch loop
(src/mxp/measure.py lines 35-69), threading the queued-direction buffer. -/
def Measure.applyChild (m : Measure) (s : MusicXMLParserState)
    (dq : List (List DirChild)) :
    MeasureChild →
      Except MXPError (Measure × MusicXMLParserState × List (List DirChild))
  | .attributes cs => do
      let (m', s') ← Measure.parseAttributes m s cs
      .ok (m', s', dq)
  | .backup d => .ok (m, Measure.parseBackup s d, dq)
  | .barline b => .ok (Measure.parseBarline m b, s, dq)
  | .direction cs =>
      let (m', s') := Measure.parseDirection m s cs
      .ok (m', s', dq ++ [cs])
  | .forward d => .ok (m, Measure.parseForward s d, dq)
  | .harmony =>
      .ok ({ m with chord_symbols := m.chord_symbols ++
               [{ time_position := s.time_position,
                  xml_position := s.xml_position }] }, s, dq)
  | .note voice is_in_chord dur =>
      let (note, s') := Note.build s dq voice is_in_chord dur
      let s'' := { s' with previous_note := some note }
      let m' :=
        { m with notes := m.notes ++ [note]
                 duration := m.duration +
                   (if voice = 1 ∧ is_in_chord = false then dur else 0) }
      .ok (m', s'', [])
  | .other => .ok (m, s, dq)

/-- Embeds the `Measure._parse` walk over the measure's children
(src/mxp/measure.py lines 35-69). -/
def Measure.walk (m : Measure) (s : MusicXMLParserState)
    (dq : List (List DirChild)) :
    List MeasureChild → Except MXPError (Measure × MusicXMLParserState)
  | [] => .ok (m, s)
  | c :: cs => do
      let (m', s', dq') ← Measure.applyChild m s dq c
      Measure.walk m' s' dq' cs

/-- Embeds the `new_time_signature` computation of `_fix_time_signature`
(src/mxp/measure.py lines 207-226): the `F == 1`-and-not-pickup
normalisation to the global denominator, else the raw pair, overwritten
by the reduced pair when `Fraction(numerator, denominator)` equals `F`. -/
def synthesizeTimeSignature (numerator denominator : Int) (g : TimeSignature)
    (s : MusicXMLParserState) : TimeSignature :=
  let F : ℚ := (numerator : ℚ) / (denominator : ℚ)
  if F = 1 ∧ ¬ numerator < g.numerator then
    { numerator := g.denominator, denominator := g.denominator,
      time_position := s.time_position, xml_position := s.xml_position }
  else
    let raw : TimeSignature :=
      { numerator := numerator, denominator := denominator,
        time_position := s.time_position, xml_position := s.xml_position }
    let new_time_sig_fraction : ℚ := (numerator : ℚ) / (denominator : ℚ)
    if new_time_sig_fraction = F then
      { raw with numerator := F.num, denominator := (F.den : Int) }
    else raw

/-- Embeds `Measure._fix_time_signature` (src/mxp/measure.py lines
173-236).  `Fraction(n, 0)` raises `ZeroDivisionError`, embedded as an
error; reading `.numerator` of an absent global signature in the else
branch raises `AttributeError`, embedded as an error. -/
def Measure.fixTimeSignature (m : Measure) (s : MusicXMLParserState) :
    Except MXPError (Measure × MusicXMLParserState) :=
  let numerator : Int := m.duration
  let denominator : Int := s.divisions * 4
  if denominator = 0 then .error .zeroDivision
  else
    let F : ℚ := (numerator : ℚ) / (denominator : ℚ)
    if s.time_signature = none ∧ m.time_signature = none then
      let ts : TimeSignature :=
        { numerator := F.num, denominator := (F.den : Int),
          time_position := s.time_position, xml_position := s.xml_position }
      .ok ({ m with time_signature := some ts },
           { s with time_signature := some ts })
    else
      match s.time_signature with
      | none => .error .attributeError
      | some g =>
          if g.denominator = 0 then .error .zeroDivision
          else
            let G : ℚ := (g.numerator : ℚ) / (g.denominator : ℚ)
            let new_time_signature := synthesizeTimeSignature numerator denominator g s
            if numerator < g.numerator ∨ (m.time_signature = none ∧ F ≠ G) then
              let installed :=
                { new_time_signature with
                    time_position := m.start_time_position,
                    xml_position := m.start_xml_position }
              .ok ({ m with time_signature := some installed },
                   { s with time_signature := some installed })
            else .ok (m, s)

/-- Embeds `Measure.__init__` (src/mxp/measure.py lines 14-33): record the
start positions, walk the children, then fix the time signature. -/
def Measure.build (children : List MeasureChild) (s : MusicXMLParserState) :
    Except MXPError (Measure × MusicXMLParserState) := do
  let m0 : Measure :=
    { notes := [], chord_symbols := [], tempos := [], time_signature := none,
      key_signature := none, barline := none, repeat_mark := none, duration := 0,
      start_time_position := s.time_position,
      start_xml_position := s.xml_position }
  let (m, s') ← Measure.walk m0 s [] children
  Measure.fixTimeSignature m s'

/-- Embeds class `Part`'s record: an ordered list of measures. -/
structure Part where
  measures : List Measure
deriving DecidableEq

/-- Modelled from the spec: `magenta/part.py` is not part of the shown core.
Per spec §2/§3 the Part parser iterates the part's measures in order
feeding each the shared Parser State, resetting the position clocks at
the part boundary. -/
def Part.buildAux (acc : List Measure) (s : MusicXMLParserState) :
    List (List MeasureChild) → Except MXPError (Part × MusicXMLParserState)
  | [] => .ok (⟨acc⟩, s)
  | cs :: rest => do
      let (m, s') ← Measure.build cs s
      Part.buildAux (acc ++ [m]) s' rest

/-- Modelled from the spec: part construction resets the position clocks
to 0 at part start, then parses the measures in order. -/
def Part.build (mss : List (List MeasureChild)) (s : MusicXMLParserState) :
    Except MXPError (Part × MusicXMLParserState) :=
  Part.buildAux [] { s with time_position := 0, xml_position := 0 } mss

/-- Embeds class `MusicXMLDocument`'s record fields used by the core
(src/magenta/main.py lines 105-115). -/
structure MusicXMLDocument where
  parts : List Part
  state : MusicXMLParserState
  total_time_secs : ℚ
  total_time_duration : Int
deriving DecidableEq

/-- Embeds the part loop of `MusicXMLDocument._parse`
(src/magenta/main.py lines 228-236): parse each part with the shared
state, keeping running maxima of the final position clocks. -/
def MusicXMLDocument.buildAux (acc : List Part) (s : MusicXMLParserState)
    (tsecs : ℚ) (tdur : Int) :
    List (List (List MeasureChild)) → Except MXPError MusicXMLDocument
  | [] => .ok ⟨acc, s, tsecs, tdur⟩
  | ps :: rest => do
      let (p, s') ← Part.build ps s
      MusicXMLDocument.buildAux (acc ++ [p]) s'
        (if tsecs < s'.time_position then s'.time_position else tsecs)
        (if tdur < s'.xml_position then s'.xml_position else tdur) rest

/-- Embeds `MusicXMLDocument.__init__` + `_parse` for the core: a fresh
parser state, then the part loop. -/
def MusicXMLDocument.build (input : List (List (List MeasureChild))) :
    Except MXPError MusicXMLDocument :=
  MusicXMLDocument.buildAux [] MusicXMLParserState.init 0 0 input

/-- Embeds `MusicXMLDocument.get_tempos` (src/magenta/main.py lines
316-340): collect tempos from the first part only, in measure order;
if none, synthesize a default from the current state's qpm at position 0. -/
def MusicXMLDocument.get_tempos (doc : MusicXMLDocument) : List Tempo :=
  let tempos : List Tempo :=
    match doc.parts with
    | [] => []
    | part :: _ => part.measures.foldl (fun acc m => acc ++ m.tempos) []
  if tempos.isEmpty then
    [{ qpm := doc.state.qpm, time_position := 0, xml_position := 0,
       divisions_at_time := doc.state.divisions }]
  else tempos

/-- Embeds the tempo-time accumulation loop of
`MusicXMLDocument.recalculate_time_position` (src/magenta/main.py lines
345-350): walk the sorted tempo list rewriting each `time_position` to
the running total, stepping by
`(next.xml_position - cur.xml_position) / cur.qpm * 60 / cur.divisions`. -/
def assignTempoTimes (acc : ℚ) : List Tempo → List Tempo
  | [] => []
  | [t] => [{ t with time_position := acc }]
  | t :: t2 :: rest =>
      { t with time_position := acc } ::
        assignTempoTimes
          (acc + ((t2.xml_position : ℚ) - (t.xml_position : ℚ)) / t.qpm * 60
             / (t.divisions_at_time : ℚ))
          (t2 :: rest)

/-- Embeds the per-note segment search and time assignment of
`MusicXMLDocument.recalculate_time_position` (src/magenta/main.py lines
355-364): the first segment `i` with `T[i].xml_position ≤ p <
T[i+1].xml_position` wins, the last segment catches everything else, and
the note time is `T[i].time_position + (p - T[i].xml_position) /
(T[i].qpm * 60 / T[i].divisions)`. -/
def noteNewTime : List Tempo → Int → ℚ
  | [], _ => 0
  | [t], p =>
      t.time_position +
        ((p : ℚ) - (t.xml_position : ℚ)) / (t.qpm * 60 / (t.divisions_at_time : ℚ))
  | t :: t2 :: rest, p =>
      if t.xml_position ≤ p ∧ p < t2.xml_position then
        t.time_position +
          ((p : ℚ) - (t.xml_position : ℚ)) / (t.qpm * 60 / (t.divisions_at_time : ℚ))
      else noteNewTime (t2 :: rest) p

/-- Default tempo record used only as the out-of-range placeholder of
`List.getD` in theorem statements. -/
def tempoDefault : Tempo :=
  { qpm := 0, time_position := 0, xml_position := 0, divisions_at_time := 0 }

/-- Decides whether a direction child is a `<sound>` element carrying a
`tempo` attribute (the only direction content `_parse_direction` acts on). -/
def DirChild.hasTempo : DirChild → Bool
  | .sound x => x.tempo.isSome
  | .other => false

/-- Decides whether a measure child contains a sound-tempo event. -/
def MeasureChild.hasTempo : MeasureChild → Bool
  | .direction cs => cs.any DirChild.hasTempo
  | _ => false

/-- Decides that a measure's children contain no sound-tempo event. -/
def noTempoMeasure (cs : List MeasureChild) : Bool :=
  cs.all (fun c => ! c.hasTempo)

/-- Decides that a whole document input contains no sound-tempo event. -/
def noTempoInput (input : List (List (List MeasureChild))) : Bool :=
  input.all (fun ps => ps.all noTempoMeasure)

/-- Decides whether a measure child is an attributes block or a note (the
two child kinds excluded by the empty-measure scenario of C3). -/
def MeasureChild.isAttrOrNote : MeasureChild → Bool
  | .attributes _ => true
  | .note _ _ _ => true
  | _ => false

/-- Decides that a measure's children contain no attributes block and no
note (they may still contain barline, harmony, backup, forward and
direction children). -/
def noAttrNoNote (cs : List MeasureChild) : Bool :=
  cs.all (fun c => ! c.isAttrOrNote)

/-- Freshly initialised measure record, as built at the start of
`Measure.__init__` with both position clocks at 0; used as a concrete
fixture in witnesses and counterexamples. -/
def measure0 : Measure :=
  { notes := [], chord_symbols := [], tempos := [], time_signature := none,
    key_signature := none, barline := none, repeat_mark := none, duration := 0,
    start_time_position := 0, start_xml_position := 0 }

/-- Concrete first measure of the spec's end-to-end scenario: four voice-1
non-chord quarter notes at divisions = 1 (each of duration 1 tick), no
time-signature element. -/
def c2Children : List MeasureChild :=
  [.note 1 false 1, .note 1 false 1, .note 1 false 1, .note 1 false 1]

/-- Concrete two-tempo fixture (120 qpm at tick 0, then 60 qpm at tick 8,
both at divisions 1), sorted by xml_position; used in the recalculation
witness. -/
def c4Tempos : List Tempo :=
  [Tempo.mk 120 0 0 1, Tempo.mk 60 0 8 1]

/-!
Theorems.
-/

/-- C9: for every Parser State with divisions d > 0 and every tick
duration n, applying backup with duration n and then forward with
duration n leaves both time_position and xml_position (indeed the whole
state) exactly unchanged. -/
theorem c9_backup_forward_roundtrip (s : MusicXMLParserState) (n : Int)
    (h : 0 < s.divisions) :
    Measure.parseForward (Measure.parseBackup s n) n = s := by
  cases s
  simp only [Measure.parseBackup, Measure.parseForward,
    MusicXMLParserState.mk.injEq, and_true, true_and]
  constructor
  · ring
  · omega

/-- Witness for C9 at a concrete state and duration. -/
theorem c9_witness :
    (0 : Int) < MusicXMLParserState.init.divisions ∧
      Measure.parseForward (Measure.parseBackup MusicXMLParserState.init 3) 3 =
        MusicXMLParserState.init :=
  ⟨by decide, c9_backup_forward_roundtrip MusicXMLParserState.init 3 (by decide)⟩

/-- C6 counterexample: a `divisions` element with the non-positive integer
value -3 is accepted without any error — the parse succeeds and installs
-3 as the state's divisions, contradicting the claim that non-positive
values fail with MalformedAttributeError. -/
theorem c6_counterexample :
    Measure.parseAttrChild measure0 MusicXMLParserState.init
        (.divisions (some (-3))) =
      .ok (measure0, { MusicXMLParserState.init with divisions := -3 }) ∧
    (Measure.parseAttrChild measure0 MusicXMLParserState.init
        (.divisions (some (-3)))).isOk = true :=
  ⟨rfl, rfl⟩

/-- C6 amended: parsing a `divisions` element installs the integer value
into Parser State unconditionally — including zero and negative values —
and only non-integer text fails (with the generic `int()` conversion
error, not a MalformedAttributeError). -/
theorem c6_divisions_assignment (m : Measure) (s : MusicXMLParserState)
    (v : Int) :
    Measure.parseAttrChild m s (.divisions (some v)) =
        .ok (m, { s with divisions := v }) ∧
    Measure.parseAttrChild m s (.divisions none) = .error .valueError :=
  ⟨rfl, rfl⟩

/-- C7 counterexample: a barline with bar-style `light-heavy` and a repeat
child with direction `backword` sets the barline kind to final but does
NOT set the repeat marker — the repeat child is not examined
independently of the bar-style value, contradicting the claim. -/
theorem c7_counterexample :
    Measure.parseBarline measure0 ⟨"light-heavy", some "backword"⟩ =
        { measure0 with barline := some "final" } ∧
    (Measure.parseBarline measure0 ⟨"light-heavy", some "backword"⟩).repeat_mark
        ≠ some "end" := by
  refine ⟨rfl, by decide⟩

/-- C7 amended: bar-style `light-light` gives a double barline and
`light-heavy` gives a final barline; only when the bar-style is neither
of these is the repeat child consulted, in which case direction
`forward` sets repeat-start and the misspelled token `backword` sets
repeat-end. -/
theorem c7_barline_cases (m : Measure) (b : XmlBarline) :
    (b.bar_style = "light-light" →
        Measure.parseBarline m b = { m with barline := some "double" }) ∧
    (b.bar_style = "light-heavy" →
        Measure.parseBarline m b = { m with barline := some "final" }) ∧
    (b.bar_style ≠ "light-light" → b.bar_style ≠ "light-heavy" →
      (b.repeat_direction = some "forward" →
          Measure.parseBarline m b = { m with repeat_mark := some "start" }) ∧
      (b.repeat_direction = some "backword" →
          Measure.parseBarline m b = { m with repeat_mark := some "end" }) ∧
      (b.repeat_direction = none → Measure.parseBarline m b = m)) := by
  refine ⟨fun h1 => ?_, fun h2 => ?_,
    fun h1 h2 => ⟨fun h3 => ?_, fun h3 => ?_, fun h3 => ?_⟩⟩
  · simp [Measure.parseBarline, h1]
  · simp [Measure.parseBarline, h2]
  · simp [Measure.parseBarline, h1, h2, h3]
  · simp [Measure.parseBarline, h1, h2, h3]
  · simp [Measure.parseBarline, h1, h2, h3]

/-- Witness for C7's amended claim: with a bar-style that is neither
`light-light` nor `light-heavy`, the `backword` repeat direction sets
the repeat-end marker. -/
theorem c7_witness :
    Measure.parseBarline measure0 ⟨"none", some "backword"⟩ =
      { measure0 with repeat_mark := some "end" } :=
  ((c7_barline_cases measure0 ⟨"none", some "backword"⟩).2.2
    (by decide) (by decide)).2.1 rfl

/-- C10: a direction whose sound children all lack a tempo attribute
leaves the measure and the Parser State entirely unchanged (so a
dynamics attribute without a tempo attribute does not update velocity);
and when a tempo attribute is present on the same sound element, an
accompanying dynamics attribute does update velocity. -/
theorem c10_direction_frame (m : Measure) (s : MusicXMLParserState)
    (ds : List DirChild) (h : ∀ c ∈ ds, DirChild.hasTempo c = false) :
    Measure.parseDirection m s ds = (m, s) ∧
    ∀ (q : ℚ) (v : Int),
      (Measure.parseDirection m s [.sound ⟨some q, some v⟩]).2.velocity = v := by
  refine ⟨?_, fun q v => rfl⟩
  induction ds with
  | nil => rfl
  | cons c cs ih =>
      cases c with
      | other =>
          simpa [Measure.parseDirection] using
            ih (fun c hc => h c (List.mem_cons_of_mem _ hc))
      | sound x =>
          have hx : x.tempo = none := by
            have := h (.sound x) (List.mem_cons_self _ _)
            simp [DirChild.hasTempo, Option.isSome_iff_exists] at this
            exact this
          simpa [Measure.parseDirection, hx] using
            ih (fun c hc => h c (List.mem_cons_of_mem _ hc))

/-- Witness for C10 at a concrete tempo-free direction (dynamics 80, no
tempo: state untouched) and a concrete tempo-carrying sound (dynamics 90
installed). -/
theorem c10_witness :
    Measure.parseDirection measure0 MusicXMLParserState.init
        [.sound ⟨none, some 80⟩] = (measure0, MusicXMLParserState.init) ∧
    (Measure.parseDirection measure0 MusicXMLParserState.init
        [.sound ⟨some 100, some 90⟩]).2.velocity = 90 :=
  ⟨(c10_direction_frame measure0 MusicXMLParserState.init
      [.sound ⟨none, some 80⟩] (by decide)).1,
   (c10_direction_frame measure0 MusicXMLParserState.init
      [.sound ⟨none, some 80⟩] (by decide)).2 100 90⟩

/-- C5: within a single measure the first time-signature element installs
that signature into the measure and the global Parser State; a second
time-signature element in the same measure raises
MultipleTimeSignatureError, which is fatal — measure construction
returns the error and no measure is produced. -/
theorem c5_multiple_time_signature (m : Measure) (s : MusicXMLParserState)
    (n1 d1 n2 d2 : Int) (h : m.time_signature = none) :
    Measure.parseAttrChild m s (.time n1 d1) =
      .ok ({ m with time_signature := some (TimeSignature.mk n1 d1 s.time_position s.xml_position) },
           { s with time_signature := some (TimeSignature.mk n1 d1 s.time_position s.xml_position) }) ∧
    Measure.parseAttributes m s [.time n1 d1, .time n2 d2] =
      .error .multipleTimeSignature ∧
    Measure.build [.attributes [.time n1 d1, .time n2 d2]] s =
      .error .multipleTimeSignature := by
  refine ⟨?_, ?_, ?_⟩
  · simp [Measure.parseAttrChild, h]
  · simp only [Measure.parseAttributes, Measure.parseAttrChild, h]
    rfl
  · rfl

/-- Witness for C5 at a concrete fresh measure and state. -/
theorem c5_witness :
    Measure.parseAttrChild measure0 MusicXMLParserState.init (.time 3 4) =
      .ok ({ measure0 with time_signature := some (TimeSignature.mk 3 4 0 0) },
           { MusicXMLParserState.init with time_signature := some (TimeSignature.mk 3 4 0 0) }) ∧
    Measure.parseAttributes measure0 MusicXMLParserState.init
        [.time 3 4, .time 6 8] = .error .multipleTimeSignature ∧
    Measure.build [.attributes [.time 3 4, .time 6 8]] MusicXMLParserState.init =
      .error .multipleTimeSignature :=
  c5_multiple_time_signature measure0 MusicXMLParserState.init 3 4 6 8 rfl

/-- Bind of a successful `Except` computation, as a rewrite rule for
evaluating the embedded parser on concrete inputs. -/
theorem except_bind_ok {e a b : Type} (x : a) (f : a → Except e b) :
    (Except.ok x : Except e a) >>= f = f x := rfl

/-- Bind of a failed `Except` computation propagates the error. -/
theorem except_bind_error {e a b : Type} (x : e) (f : a → Except e b) :
    (Except.error x : Except e a) >>= f = Except.error x := rfl

/-- C1: at measure end with a global signature `g` present, with
`numerator` the measure's cumulative voice-1 duration, `denominator`
`divisions * 4` and `F` their quotient (`ℚ` values are reduced fractions,
so `F.num`/`F.den` is the reduced pair): if `F = 1` and the measure is
not a pickup the synthesized signature is `g.denominator/g.denominator`;
otherwise it is the raw pair except that when
`Fraction(numerator, denominator)` equals `F` the reduced pair is used. -/
theorem c1_synthesized_signature (m : Measure) (g : TimeSignature)
    (s : MusicXMLParserState) (numerator denominator : Int)
    (hnum : numerator = m.duration) (hden : denominator = s.divisions * 4)
    (F : ℚ) (hF : F = (numerator : ℚ) / (denominator : ℚ))
    (ts : TimeSignature)
    (hts : ts = synthesizeTimeSignature numerator denominator g s) :
    ((F = 1 ∧ ¬ numerator < g.numerator) →
        ts.numerator = g.denominator ∧ ts.denominator = g.denominator) ∧
    (¬ (F = 1 ∧ ¬ numerator < g.numerator) →
        ((numerator : ℚ) / (denominator : ℚ) = F →
            ts.numerator = F.num ∧ ts.denominator = (F.den : Int)) ∧
        ((numerator : ℚ) / (denominator : ℚ) ≠ F →
            ts.numerator = numerator ∧ ts.denominator = denominator)) := by
  subst hnum hden hF hts
  refine ⟨fun h => ?_, fun h => ⟨fun _ => ?_, fun h2 => absurd rfl h2⟩⟩
  · simp only [synthesizeTimeSignature, if_pos h]
    exact ⟨by trivial, by trivial⟩
  · simp only [synthesizeTimeSignature, if_neg h, if_pos rfl]
    exact ⟨by trivial, by trivial⟩

/-- Witness for C1: duration 8 at divisions 2 under global 4/4 gives
`F = 1`, not a pickup, so the synthesized signature is 4/4 (the global
denominator on both sides). -/
theorem c1_witness :
    (synthesizeTimeSignature 8 8 (TimeSignature.mk 4 4 0 0)
        { MusicXMLParserState.init with divisions := 2 }).numerator = 4 ∧
    (synthesizeTimeSignature 8 8 (TimeSignature.mk 4 4 0 0)
        { MusicXMLParserState.init with divisions := 2 }).denominator = 4 :=
  (c1_synthesized_signature { measure0 with duration := 8 }
      (TimeSignature.mk 4 4 0 0) { MusicXMLParserState.init with divisions := 2 }
      8 8 rfl (by decide) (((8 : Int) : ℚ) / ((8 : Int) : ℚ)) rfl
      (synthesizeTimeSignature 8 8 (TimeSignature.mk 4 4 0 0)
        { MusicXMLParserState.init with divisions := 2 }) rfl).1
    (by norm_num)

/-- C2 counterexample: a first measure with divisions = 1, four voice-1
non-chord quarter notes and no time-signature element, starting from the
default state, synthesizes numerator 1 (the reduced `Fraction(4, 4)`),
not numerator 4 as the claim states. -/
theorem c2_counterexample :
    (Measure.build c2Children MusicXMLParserState.init).map
        (fun r => r.1.time_signature.map TimeSignature.numerator) ≠
      .ok (some 4) ∧
    (Measure.build c2Children MusicXMLParserState.init).map
        (fun r => r.1.time_signature.map TimeSignature.numerator) =
      .ok (some 1) := by
  constructor <;>
  · simp only [c2Children, Measure.build, Measure.walk, Measure.applyChild,
      Note.build, MusicXMLParserState.init, except_bind_ok, Except.map,
      Measure.fixTimeSignature, synthesizeTimeSignature, STANDARD_PPQ]
    norm_num

/-- C2 amended: for a first measure parsed with divisions = 1, four
voice-1 non-chord quarter notes (cumulative duration 4), no
time-signature element and no global signature yet, the synthesized
signature is the reduced fraction 1/1 (not 4/4), installed as both the
measure's and the global state's current signature (at the measure-end
positions time 2, tick 4). -/
theorem c2_first_measure_signature :
    (Measure.build c2Children MusicXMLParserState.init).map
        (fun r => (r.1.time_signature, r.2.time_signature)) =
      .ok (some (TimeSignature.mk 1 1 2 4), some (TimeSignature.mk 1 1 2 4)) := by
  simp only [c2Children, Measure.build, Measure.walk, Measure.applyChild,
    Note.build, MusicXMLParserState.init, except_bind_ok, Except.map,
    Measure.fixTimeSignature, synthesizeTimeSignature, STANDARD_PPQ]
  norm_num

/-- C3 counterexample: an empty measure (no attributes, no notes) parsed
while the global signature is 4/4 at divisions 1 replaces the global
signature with 0/1 — the numerator-0 case does trigger the pickup
branch, contradicting the claim that the global signature is unchanged. -/
theorem c3_counterexample :
    (Measure.build []
        { MusicXMLParserState.init with
            time_signature := some (TimeSignature.mk 4 4 0 0) }).map
        (fun r => r.2.time_signature) ≠ .ok (some (TimeSignature.mk 4 4 0 0)) ∧
    (Measure.build []
        { MusicXMLParserState.init with
            time_signature := some (TimeSignature.mk 4 4 0 0) }).map
        (fun r => r.2.time_signature) = .ok (some (TimeSignature.mk 0 1 0 0)) := by
  constructor <;>
  · simp only [Measure.build, Measure.walk, MusicXMLParserState.init,
      except_bind_ok, Except.map, Measure.fixTimeSignature,
      synthesizeTimeSignature]
    norm_num

/-- Parsing a barline changes at most the barline kind and the repeat
marker of the measure. -/
theorem parseBarline_shape (m : Measure) (b : XmlBarline) :
    ∃ bl rm, Measure.parseBarline m b = { m with barline := bl, repeat_mark := rm } := by
  unfold Measure.parseBarline
  split
  · exact ⟨some "double", m.repeat_mark, rfl⟩
  · split
    · exact ⟨some "final", m.repeat_mark, rfl⟩
    · split
      · split
        · exact ⟨m.barline, some "start", rfl⟩
        · split
          · exact ⟨m.barline, some "end", rfl⟩
          · exact ⟨m.barline, m.repeat_mark, rfl⟩
      · exact ⟨m.barline, m.repeat_mark, rfl⟩

/-- Parsing a direction preserves the measure's duration, time signature
and start positions, and the state's divisions and global time
signature. -/
theorem parseDirection_preserves : ∀ (ds : List DirChild) (m : Measure)
    (s : MusicXMLParserState),
    (Measure.parseDirection m s ds).1.duration = m.duration ∧
    (Measure.parseDirection m s ds).1.time_signature = m.time_signature ∧
    (Measure.parseDirection m s ds).1.start_time_position = m.start_time_position ∧
    (Measure.parseDirection m s ds).1.start_xml_position = m.start_xml_position ∧
    (Measure.parseDirection m s ds).2.divisions = s.divisions ∧
    (Measure.parseDirection m s ds).2.time_signature = s.time_signature
  | [], m, s => ⟨rfl, rfl, rfl, rfl, rfl, rfl⟩
  | .other :: cs, m, s => parseDirection_preserves cs m s
  | .sound x :: cs, m, s => by
      cases hx : x.tempo with
      | none =>
          simpa [Measure.parseDirection, hx] using
            parseDirection_preserves cs m s
      | some q0 =>
          cases hd : x.dynamics with
          | none =>
              have h := parseDirection_preserves cs
                { m with tempos := m.tempos ++
                    [{ qpm := q0, time_position := s.time_position,
                       xml_position := s.xml_position,
                       divisions_at_time := s.divisions }] }
                { s with qpm := q0, seconds_per_quarter := 60 / q0 }
              simpa [Measure.parseDirection, hx, hd] using h
          | some dv =>
              have h := parseDirection_preserves cs
                { m with tempos := m.tempos ++
                    [{ qpm := q0, time_position := s.time_position,
                       xml_position := s.xml_position,
                       divisions_at_time := s.divisions }] }
                { s with qpm := q0, seconds_per_quarter := 60 / q0,
                         velocity := dv }
              simpa [Measure.parseDirection, hx, hd] using h

/-- Walking measure children that contain no attributes block and no note
always succeeds, preserves the measure's duration, time signature and
start positions, and preserves the state's divisions and global time
signature (such children may still move the position clocks, change
tempo/velocity, and set barline, repeat and chord-symbol data). -/
theorem walk_no_attr_note : ∀ (cs : List MeasureChild) (m : Measure)
    (s : MusicXMLParserState) (dq : List (List DirChild)),
    noAttrNoNote cs = true →
    ∃ m' s', Measure.walk m s dq cs = .ok (m', s') ∧
      m'.duration = m.duration ∧ m'.time_signature = m.time_signature ∧
      m'.start_time_position = m.start_time_position ∧
      m'.start_xml_position = m.start_xml_position ∧
      s'.divisions = s.divisions ∧ s'.time_signature = s.time_signature := by
  intro cs
  induction cs with
  | nil =>
      intro m s dq _
      exact ⟨m, s, rfl, rfl, rfl, rfl, rfl, rfl, rfl⟩
  | cons c cs ih =>
      intro m s dq hcs
      simp only [noAttrNoNote, List.all_cons, Bool.and_eq_true,
        Bool.not_eq_true'] at hcs
      obtain ⟨hc, hcs'⟩ := hcs
      have hcs'' : noAttrNoNote cs = true := hcs'
      cases c with
      | attributes as => simp [MeasureChild.isAttrOrNote] at hc
      | note v ch d => simp [MeasureChild.isAttrOrNote] at hc
      | backup d =>
          obtain ⟨m', s', hw, p1, p2, p3, p4, p5, p6⟩ :=
            ih m (Measure.parseBackup s d) dq hcs''
          exact ⟨m', s', hw, p1, p2, p3, p4, p5, p6⟩
      | forward d =>
          obtain ⟨m', s', hw, p1, p2, p3, p4, p5, p6⟩ :=
            ih m (Measure.parseForward s d) dq hcs''
          exact ⟨m', s', hw, p1, p2, p3, p4, p5, p6⟩
      | barline b =>
          obtain ⟨bl, rm, hbl⟩ := parseBarline_shape m b
          obtain ⟨m', s', hw, p1, p2, p3, p4, p5, p6⟩ :=
            ih (Measure.parseBarline m b) s dq hcs''
          refine ⟨m', s', hw, ?_, ?_, ?_, ?_, p5, p6⟩
          · rw [p1, hbl]
          · rw [p2, hbl]
          · rw [p3, hbl]
          · rw [p4, hbl]
      | direction ds =>
          obtain ⟨d1, d2, d3, d4, d5, d6⟩ := parseDirection_preserves ds m s
          obtain ⟨m', s', hw, p1, p2, p3, p4, p5, p6⟩ :=
            ih (Measure.parseDirection m s ds).1
              (Measure.parseDirection m s ds).2 (dq ++ [ds]) hcs''
          exact ⟨m', s', hw, p1.trans d1, p2.trans d2, p3.trans d3,
            p4.trans d4, p5.trans d5, p6.trans d6⟩
      | harmony =>
          obtain ⟨m', s', hw, p1, p2, p3, p4, p5, p6⟩ :=
            ih { m with chord_symbols := m.chord_symbols ++
                   [{ time_position := s.time_position,
                      xml_position := s.xml_position }] } s dq hcs''
          exact ⟨m', s', hw, p1, p2, p3, p4, p5, p6⟩
      | other =>
          obtain ⟨m', s', hw, p1, p2, p3, p4, p5, p6⟩ := ih m s dq hcs''
          exact ⟨m', s', hw, p1, p2, p3, p4, p5, p6⟩

/-- C3 amended: every measure containing no attributes block and no notes
(cumulative voice-1 duration 0; barline, harmony, backup, forward and
direction children are allowed), parsed while the global time signature
is 4/4, does overwrite the global signature: numerator 0 < 4 triggers
the pickup branch, and the 0/(divisions·4) fraction — reduced to 0/1 —
is installed at the measure's start positions (the position clocks at
measure entry, even when later children have moved them) as both the
measure's and the global state's signature. -/
theorem c3_empty_measure_pickup (cs : List MeasureChild)
    (s : MusicXMLParserState) (g : TimeSignature)
    (hcs : noAttrNoNote cs = true) (hg : s.time_signature = some g)
    (hnum : g.numerator = 4) (hden : g.denominator = 4)
    (hdiv : 0 < s.divisions) :
    ∃ m' s'', Measure.build cs s = .ok (m', s'') ∧
      m'.time_signature = some (TimeSignature.mk 0 1 s.time_position s.xml_position) ∧
      s''.time_signature = some (TimeSignature.mk 0 1 s.time_position s.xml_position) := by
  have hd : s.divisions * 4 ≠ 0 := by omega
  obtain ⟨m1, s1, hw, hdur, hts, hst, hsx, hdv, hsg⟩ :=
    walk_no_attr_note cs
      { notes := [], chord_symbols := [], tempos := [], time_signature := none,
        key_signature := none, barline := none, repeat_mark := none,
        duration := 0, start_time_position := s.time_position,
        start_xml_position := s.xml_position } s [] hcs
  have hdur' : m1.duration = 0 := hdur
  have hts' : m1.time_signature = none := hts
  have hst' : m1.start_time_position = s.time_position := hst
  have hsx' : m1.start_xml_position = s.xml_position := hsx
  have hsg' : s1.time_signature = some g := hsg.trans hg
  have hbuild : Measure.build cs s = Measure.fixTimeSignature m1 s1 := by
    simp only [Measure.build, hw, except_bind_ok]
  refine ⟨{ m1 with time_signature := some (TimeSignature.mk 0 1 s.time_position s.xml_position) },
          { s1 with time_signature := some (TimeSignature.mk 0 1 s.time_position s.xml_position) },
          ?_, rfl, rfl⟩
  rw [hbuild, Measure.fixTimeSignature]
  simp only [synthesizeTimeSignature, hdur', hts', hst', hsx', hdv, hsg',
    hnum, hden, if_neg hd]
  norm_num
  exact fun h => absurd h (by simp)

/-- Witness for C3's amended claim: a measure whose children are a
forward of 2 ticks and a harmony (no attributes, no notes), under a
global 4/4 signature — the 0/1 signature is installed at the measure's
start positions (0, 0) although the clocks have moved by measure end. -/
theorem c3_witness :
    ∃ m' s'', Measure.build [MeasureChild.forward 2, MeasureChild.harmony]
        { MusicXMLParserState.init with time_signature := some (TimeSignature.mk 4 4 0 0) } =
        .ok (m', s'') ∧
      m'.time_signature = some (TimeSignature.mk 0 1 0 0) ∧
      s''.time_signature = some (TimeSignature.mk 0 1 0 0) :=
  c3_empty_measure_pickup [MeasureChild.forward 2, MeasureChild.harmony]
    { MusicXMLParserState.init with time_signature := some (TimeSignature.mk 4 4 0 0) }
    (TimeSignature.mk 4 4 0 0) (by decide) rfl rfl rfl (by decide)

/-- Parsing a direction whose sound children all lack a tempo attribute
is the identity on measure and state (helper for the tempo-free
invariant). -/
theorem parseDirection_id_of_no_tempo (m : Measure) (s : MusicXMLParserState) :
    ∀ ds : List DirChild, ds.all (fun c => ! c.hasTempo) = true →
      Measure.parseDirection m s ds = (m, s)
  | [], _ => rfl
  | .other :: cs, h => by
      simp only [List.all_cons, Bool.and_eq_true] at h
      simpa [Measure.parseDirection] using
        parseDirection_id_of_no_tempo m s cs h.2
  | .sound x :: cs, h => by
      cases hx : x.tempo with
      | some q =>
          exfalso
          simp [List.all_cons, DirChild.hasTempo, hx] at h
      | none =>
          simp only [List.all_cons, Bool.and_eq_true] at h
          simpa [Measure.parseDirection, hx] using
            parseDirection_id_of_no_tempo m s cs h.2

/-- One attributes child never touches the measure's tempo list or the
state's qpm. -/
theorem parseAttrChild_frame (m : Measure) (s : MusicXMLParserState)
    (c : AttrChild) (r : Measure × MusicXMLParserState)
    (h : Measure.parseAttrChild m s c = .ok r) :
    r.1.tempos = m.tempos ∧ r.2.qpm = s.qpm := by
  cases c with
  | divisions t =>
      cases t with
      | none => simp [Measure.parseAttrChild] at h
      | some v =>
          simp only [Measure.parseAttrChild, Except.ok.injEq] at h
          subst h; exact ⟨rfl, rfl⟩
  | key fifths =>
      simp only [Measure.parseAttrChild, Except.ok.injEq] at h
      subst h; exact ⟨rfl, rfl⟩
  | time num den =>
      cases hm : m.time_signature with
      | none =>
          simp only [Measure.parseAttrChild, hm, Except.ok.injEq] at h
          subst h; exact ⟨rfl, rfl⟩
      | some ts => simp [Measure.parseAttrChild, hm] at h
  | transposeBy chromatic =>
      cases hk : m.key_signature with
      | none =>
          simp only [Measure.parseAttrChild, hk, Except.ok.injEq] at h
          subst h; exact ⟨rfl, rfl⟩
      | some ks =>
          simp only [Measure.parseAttrChild, hk, Except.ok.injEq] at h
          subst h; exact ⟨rfl, rfl⟩
  | other =>
      simp only [Measure.parseAttrChild, Except.ok.injEq] at h
      subst h; exact ⟨rfl, rfl⟩

/-- A whole attributes block never touches the measure's tempo list or
the state's qpm. -/
theorem parseAttributes_frame (cs : List AttrChild) :
    ∀ (m : Measure) (s : MusicXMLParserState) (r : Measure × MusicXMLParserState),
      Measure.parseAttributes m s cs = .ok r →
      r.1.tempos = m.tempos ∧ r.2.qpm = s.qpm := by
  induction cs with
  | nil =>
      intro m s r h
      simp only [Measure.parseAttributes, Except.ok.injEq] at h
      subst h; exact ⟨rfl, rfl⟩
  | cons c cs ih =>
      intro m s r h
      simp only [Measure.parseAttributes] at h
      cases hc : Measure.parseAttrChild m s c with
      | error e => rw [hc, except_bind_error] at h; simp at h
      | ok r1 =>
          rw [hc, except_bind_ok] at h
          obtain ⟨h1, h2⟩ := parseAttrChild_frame m s c r1 hc
          obtain ⟨h3, h4⟩ := ih r1.1 r1.2 r h
          exact ⟨h3.trans h1, h4.trans h2⟩

/-- A measure child containing no sound-tempo event never touches the
measure's tempo list or the state's qpm. -/
theorem applyChild_frame (m : Measure) (s : MusicXMLParserState)
    (dq : List (List DirChild)) (c : MeasureChild)
    (r : Measure × MusicXMLParserState × List (List DirChild))
    (hnt : c.hasTempo = false) (h : Measure.applyChild m s dq c = .ok r) :
    r.1.tempos = m.tempos ∧ r.2.1.qpm = s.qpm := by
  cases c with
  | attributes cs =>
      simp only [Measure.applyChild] at h
      cases hc : Measure.parseAttributes m s cs with
      | error e => rw [hc, except_bind_error] at h; simp at h
      | ok r1 =>
          rw [hc, except_bind_ok] at h
          obtain ⟨h1, h2⟩ := parseAttributes_frame cs m s r1 hc
          simp only [Except.ok.injEq] at h
          subst h
          exact ⟨h1, h2⟩
  | backup d =>
      simp only [Measure.applyChild, Except.ok.injEq] at h
      subst h; exact ⟨rfl, rfl⟩
  | barline b =>
      simp only [Measure.applyChild, Except.ok.injEq] at h
      subst h
      constructor
      · show (Measure.parseBarline m b).tempos = m.tempos
        unfold Measure.parseBarline
        split
        · rfl
        · split
          · rfl
          · split
            · split
              · rfl
              · split
                · rfl
                · rfl
            · rfl
      · rfl
  | direction ds =>
      simp only [MeasureChild.hasTempo, List.any_eq_false] at hnt
      have hds : ds.all (fun c => ! c.hasTempo) = true := by
        simp only [List.all_eq_true, Bool.not_eq_true']
        intro c hc
        cases hcb : c.hasTempo with
        | false => rfl
        | true => exact absurd hcb (hnt c hc)
      simp only [Measure.applyChild,
        parseDirection_id_of_no_tempo m s ds hds, Except.ok.injEq] at h
      subst h; exact ⟨rfl, rfl⟩
  | forward d =>
      simp only [Measure.applyChild, Except.ok.injEq] at h
      subst h; exact ⟨rfl, rfl⟩
  | harmony =>
      simp only [Measure.applyChild, Except.ok.injEq] at h
      subst h; exact ⟨rfl, rfl⟩
  | note voice is_in_chord dur =>
      simp only [Measure.applyChild, Except.ok.injEq] at h
      subst h
      constructor
      · rfl
      · show (Note.build s dq voice is_in_chord dur).2.qpm = s.qpm
        unfold Note.build
        split
        · rfl
        · rfl
  | other =>
      simp only [Measure.applyChild, Except.ok.injEq] at h
      subst h; exact ⟨rfl, rfl⟩

/-- The measure walk over tempo-free children never touches the measure's
tempo list or the state's qpm. -/
theorem walk_frame (cs : List MeasureChild) :
    ∀ (m : Measure) (s : MusicXMLParserState) (dq : List (List DirChild))
      (r : Measure × MusicXMLParserState),
      noTempoMeasure cs = true → Measure.walk m s dq cs = .ok r →
      r.1.tempos = m.tempos ∧ r.2.qpm = s.qpm := by
  induction cs with
  | nil =>
      intro m s dq r _ h
      simp only [Measure.walk, Except.ok.injEq] at h
      subst h; exact ⟨rfl, rfl⟩
  | cons c cs ih =>
      intro m s dq r hnt h
      simp only [noTempoMeasure, List.all_cons, Bool.and_eq_true,
        Bool.not_eq_true'] at hnt
      simp only [Measure.walk] at h
      cases hc : Measure.applyChild m s dq c with
      | error e => rw [hc, except_bind_error] at h; simp at h
      | ok r1 =>
          rw [hc, except_bind_ok] at h
          obtain ⟨h1, h2⟩ := applyChild_frame m s dq c r1 hnt.1 hc
          obtain ⟨h3, h4⟩ := ih r1.1 r1.2.1 r1.2.2 r hnt.2 h
          exact ⟨h3.trans h1, h4.trans h2⟩

/-- Fixing the time signature never touches the measure's tempo list or
the state's qpm. -/
theorem fixTimeSignature_frame (m : Measure) (s : MusicXMLParserState)
    (r : Measure × MusicXMLParserState)
    (h : Measure.fixTimeSignature m s = .ok r) :
    r.1.tempos = m.tempos ∧ r.2.qpm = s.qpm := by
  simp only [Measure.fixTimeSignature] at h
  split at h
  · simp at h
  · split at h
    · simp only [Except.ok.injEq] at h
      subst h; exact ⟨rfl, rfl⟩
    · split at h
      · simp at h
      · split at h
        · simp at h
        · split at h
          · simp only [Except.ok.injEq] at h
            subst h; exact ⟨rfl, rfl⟩
          · simp only [Except.ok.injEq] at h
            subst h; exact ⟨rfl, rfl⟩

/-- Building a measure from tempo-free children yields an empty tempo
list and preserves the state's qpm. -/
theorem build_no_tempo (cs : List MeasureChild) (s : MusicXMLParserState)
    (m : Measure) (s' : MusicXMLParserState)
    (hnt : noTempoMeasure cs = true) (h : Measure.build cs s = .ok (m, s')) :
    m.tempos = [] ∧ s'.qpm = s.qpm := by
  simp only [Measure.build] at h
  cases hw : Measure.walk
      { notes := [], chord_symbols := [], tempos := [], time_signature := none,
        key_signature := none, barline := none, repeat_mark := none,
        duration := 0, start_time_position := s.time_position,
        start_xml_position := s.xml_position } s [] cs with
  | error e => rw [hw, except_bind_error] at h; simp at h
  | ok r1 =>
      rw [hw, except_bind_ok] at h
      obtain ⟨h1, h2⟩ := walk_frame cs _ s [] r1 hnt hw
      obtain ⟨h3, h4⟩ := fixTimeSignature_frame r1.1 r1.2 (m, s') h
      exact ⟨h3.trans h1, h4.trans h2⟩

/-- The part-measure loop over tempo-free measures keeps every measure's
tempo list empty and preserves the state's qpm. -/
theorem partAux_no_tempo (mss : List (List MeasureChild)) :
    ∀ (acc : List Measure) (s : MusicXMLParserState) (p : Part)
      (s' : MusicXMLParserState),
      mss.all noTempoMeasure = true →
      (∀ m ∈ acc, m.tempos = ([] : List Tempo)) →
      Part.buildAux acc s mss = .ok (p, s') →
      (∀ m ∈ p.measures, m.tempos = ([] : List Tempo)) ∧ s'.qpm = s.qpm := by
  induction mss with
  | nil =>
      intro acc s p s' _ hacc h
      simp only [Part.buildAux, Except.ok.injEq, Prod.mk.injEq] at h
      obtain ⟨h1, h2⟩ := h
      subst h2
      refine ⟨fun m hm => hacc m ?_, rfl⟩
      rw [← h1] at hm
      exact hm
  | cons cs rest ih =>
      intro acc s p s' hnt hacc h
      simp only [List.all_cons, Bool.and_eq_true] at hnt
      simp only [Part.buildAux] at h
      cases hb : Measure.build cs s with
      | error e => rw [hb, except_bind_error] at h; simp at h
      | ok r1 =>
          rw [hb, except_bind_ok] at h
          obtain ⟨h1, h2⟩ := build_no_tempo cs s r1.1 r1.2 hnt.1 hb
          obtain ⟨h3, h4⟩ := ih (acc ++ [r1.1]) r1.2 p s' hnt.2
            (by
              intro m hm
              rcases List.mem_append.mp hm with hm1 | hm2
              · exact hacc m hm1
              · rw [List.mem_singleton.mp hm2]; exact h1) h
          exact ⟨h3, h4.trans h2⟩

/-- Building a part from tempo-free measures keeps every measure's tempo
list empty and preserves the state's qpm. -/
theorem part_no_tempo (mss : List (List MeasureChild))
    (s : MusicXMLParserState) (p : Part) (s' : MusicXMLParserState)
    (hnt : mss.all noTempoMeasure = true)
    (h : Part.build mss s = .ok (p, s')) :
    (∀ m ∈ p.measures, m.tempos = ([] : List Tempo)) ∧ s'.qpm = s.qpm :=
  partAux_no_tempo mss []
    { s with time_position := 0, xml_position := 0 } p s' hnt
    (fun m hm => absurd hm (List.not_mem_nil m)) h

/-- The document part loop over a tempo-free input keeps every measure's
tempo list empty in every part and preserves the state's qpm. -/
theorem docAux_no_tempo (input : List (List (List MeasureChild))) :
    ∀ (acc : List Part) (s : MusicXMLParserState) (t1 : ℚ) (t2 : Int)
      (doc : MusicXMLDocument),
      noTempoInput input = true →
      (∀ pt ∈ acc, ∀ m ∈ pt.measures, m.tempos = ([] : List Tempo)) →
      MusicXMLDocument.buildAux acc s t1 t2 input = .ok doc →
      (∀ pt ∈ doc.parts, ∀ m ∈ pt.measures, m.tempos = ([] : List Tempo)) ∧
        doc.state.qpm = s.qpm := by
  induction input with
  | nil =>
      intro acc s t1 t2 doc _ hacc h
      simp only [MusicXMLDocument.buildAux, Except.ok.injEq] at h
      subst h
      exact ⟨hacc, rfl⟩
  | cons ps rest ih =>
      intro acc s t1 t2 doc hnt hacc h
      simp only [noTempoInput, List.all_cons, Bool.and_eq_true] at hnt
      simp only [MusicXMLDocument.buildAux] at h
      cases hp : Part.build ps s with
      | error e => rw [hp, except_bind_error] at h; simp at h
      | ok r1 =>
          rw [hp, except_bind_ok] at h
          obtain ⟨h1, h2⟩ := part_no_tempo ps s r1.1 r1.2 hnt.1 hp
          obtain ⟨h3, h4⟩ := ih (acc ++ [r1.1]) r1.2 _ _ doc hnt.2
            (by
              intro pt hpt
              rcases List.mem_append.mp hpt with hp1 | hp2
              · exact hacc pt hp1
              · rw [List.mem_singleton.mp hp2]; exact h1) h
          exact ⟨h3, h4.trans h2⟩

/-- Folding tempo collection over measures with empty tempo lists is the
identity on the accumulator. -/
theorem foldl_tempos_nil (ms : List Measure) :
    ∀ acc : List Tempo, (∀ m ∈ ms, m.tempos = ([] : List Tempo)) →
      ms.foldl (fun acc m => acc ++ m.tempos) acc = acc := by
  induction ms with
  | nil => intro acc _; rfl
  | cons m ms ih =>
      intro acc h
      simp only [List.foldl_cons, h m (List.mem_cons_self m ms),
        List.append_nil]
      exact ih acc (fun x hx => h x (List.mem_cons_of_mem m hx))

/-- C8: get_tempos collects tempo events only from the first part in
measure order (when that collection is nonempty it is returned as-is);
and on a document parsed from an input with zero sound-tempo events it
returns exactly one Tempo with qpm 120, time_position 0 and
xml_position 0. -/
theorem c8_get_tempos (input : List (List (List MeasureChild)))
    (doc : MusicXMLDocument) (hbuild : MusicXMLDocument.build input = .ok doc) :
    (∀ (p : Part) (rest : List Part), doc.parts = p :: rest →
        p.measures.foldl (fun acc m => acc ++ m.tempos) [] ≠ [] →
        doc.get_tempos = p.measures.foldl (fun acc m => acc ++ m.tempos) []) ∧
    (noTempoInput input = true →
        ∃ t, doc.get_tempos = [t] ∧ t.qpm = 120 ∧ t.time_position = 0 ∧
          t.xml_position = 0) := by
  constructor
  · intro p rest hp hne
    unfold MusicXMLDocument.get_tempos
    rw [hp]
    rw [if_neg]
    simpa [List.isEmpty_iff] using hne
  · intro hnt
    obtain ⟨hall, hqpm⟩ := docAux_no_tempo input [] MusicXMLParserState.init
      0 0 doc hnt (fun pt hpt => absurd hpt (List.not_mem_nil pt)) hbuild
    refine ⟨{ qpm := doc.state.qpm, time_position := 0, xml_position := 0,
              divisions_at_time := doc.state.divisions }, ?_, ?_, rfl, rfl⟩
    · unfold MusicXMLDocument.get_tempos
      cases hp : doc.parts with
      | nil => rfl
      | cons p rest =>
          have h0 : List.foldl (fun acc m => acc ++ m.tempos)
              ([] : List Tempo) p.measures = [] :=
            foldl_tempos_nil p.measures []
              (hall p (by rw [hp]; exact List.mem_cons_self p rest))
          simp [h0]
    · exact hqpm

/-- Witness for C8: the empty document parses successfully, contains no
sound-tempo event, and get_tempos yields the single default 120-qpm
tempo at position 0. -/
theorem c8_witness :
    ∃ t, (MusicXMLDocument.mk [] MusicXMLParserState.init 0 0).get_tempos =
        [t] ∧ t.qpm = 120 ∧ t.time_position = 0 ∧ t.xml_position = 0 :=
  (c8_get_tempos [] (MusicXMLDocument.mk [] MusicXMLParserState.init 0 0)
    rfl).2 rfl

/-- Unfolding of the tempo-time accumulation on a list with at least two
elements. -/
theorem assign_cons_cons (a : ℚ) (t t2 : Tempo) (rest : List Tempo) :
    assignTempoTimes a (t :: t2 :: rest) =
      { t with time_position := a } ::
        assignTempoTimes
          (a + ((t2.xml_position : ℚ) - (t.xml_position : ℚ)) / t.qpm * 60
             / (t.divisions_at_time : ℚ)) (t2 :: rest) := rfl

/-- The tempo-time accumulation never returns an empty list on a cons. -/
theorem assign_ne_nil (a : ℚ) (t : Tempo) (rest : List Tempo) :
    assignTempoTimes a (t :: rest) ≠ [] := by
  cases rest <;> simp [assignTempoTimes]

/-- The head of the accumulated list is the head tempo stamped with the
accumulator. -/
theorem assign_getD_zero (a : ℚ) (t : Tempo) (rest : List Tempo) :
    (assignTempoTimes a (t :: rest)).getD 0 tempoDefault =
      { t with time_position := a } := by
  cases rest <;> rfl

/-- The accumulation rewrites only time_position: xml_position, qpm and
divisions are preserved at every index. -/
theorem assign_fields : ∀ (ts : List Tempo) (a : ℚ) (i : Nat),
    ((assignTempoTimes a ts).getD i tempoDefault).xml_position =
        (ts.getD i tempoDefault).xml_position ∧
    ((assignTempoTimes a ts).getD i tempoDefault).qpm =
        (ts.getD i tempoDefault).qpm ∧
    ((assignTempoTimes a ts).getD i tempoDefault).divisions_at_time =
        (ts.getD i tempoDefault).divisions_at_time
  | [], _, _ => ⟨rfl, rfl, rfl⟩
  | [_], _, 0 => ⟨rfl, rfl, rfl⟩
  | [_], _, _ + 1 => ⟨rfl, rfl, rfl⟩
  | _ :: _ :: _, _, 0 => ⟨rfl, rfl, rfl⟩
  | _ :: t2 :: rest, _, i + 1 => assign_fields (t2 :: rest) _ i

/-- The accumulated time at each successor index steps by the code's
increment formula over the input list's fields. -/
theorem assign_step : ∀ (ts : List Tempo) (a : ℚ) (i : Nat), i + 1 < ts.length →
    ((assignTempoTimes a ts).getD (i + 1) tempoDefault).time_position =
      ((assignTempoTimes a ts).getD i tempoDefault).time_position +
        (((ts.getD (i + 1) tempoDefault).xml_position : ℚ) -
            ((ts.getD i tempoDefault).xml_position : ℚ)) /
          (ts.getD i tempoDefault).qpm * 60 /
          ((ts.getD i tempoDefault).divisions_at_time : ℚ)
  | [], _, i, h => absurd h (by simp)
  | [_], _, i, h => absurd h (by simp)
  | _ :: _ :: rest, _, 0, _ => by cases rest <;> rfl
  | _ :: t2 :: rest, _, i + 1, h =>
      assign_step (t2 :: rest) _ i (by simpa using Nat.lt_of_succ_lt_succ h)

/-- Unfolding of the note-time segment search on a two-or-more list. -/
theorem noteNewTime_cons_cons (t t2 : Tempo) (rest : List Tempo) (p : Int) :
    noteNewTime (t :: t2 :: rest) p =
      if t.xml_position ≤ p ∧ p < t2.xml_position then
        t.time_position + ((p : ℚ) - (t.xml_position : ℚ)) /
          (t.qpm * 60 / (t.divisions_at_time : ℚ))
      else noteNewTime (t2 :: rest) p := rfl

/-- The segment search falls through the head tempo when the head's
segment does not contain the position. -/
theorem noteNewTime_skip (t : Tempo) (l : List Tempo) (p : Int)
    (hne : l ≠ [])
    (hcond : ¬ (t.xml_position ≤ p ∧ p < (l.getD 0 tempoDefault).xml_position)) :
    noteNewTime (t :: l) p = noteNewTime l p := by
  cases l with
  | nil => exact absurd rfl hne
  | cons t2 r => rw [noteNewTime_cons_cons]; exact if_neg hcond

/-- The segment search stops at the head tempo when the head's segment
contains the position. -/
theorem noteNewTime_hit (t : Tempo) (l : List Tempo) (p : Int)
    (hne : l ≠ [])
    (hcond : t.xml_position ≤ p ∧ p < (l.getD 0 tempoDefault).xml_position) :
    noteNewTime (t :: l) p =
      t.time_position + ((p : ℚ) - (t.xml_position : ℚ)) /
        (t.qpm * 60 / (t.divisions_at_time : ℚ)) := by
  cases l with
  | nil => exact absurd rfl hne
  | cons t2 r => rw [noteNewTime_cons_cons]; exact if_pos hcond

/-- In an xml-sorted tempo list, the head's position bounds every entry. -/
theorem sorted_head_le (l : List Tempo)
    (hs : List.Pairwise (fun x y => x.xml_position ≤ y.xml_position) l)
    (j : Nat) (hj : j < l.length) :
    (l.getD 0 tempoDefault).xml_position ≤
      (l.getD j tempoDefault).xml_position := by
  cases l with
  | nil => exact absurd hj (by simp)
  | cons x xs =>
      cases j with
      | zero => exact le_refl _
      | succ j =>
          have hj' : j < xs.length := by simpa using hj
          have hget : (x :: xs).getD (j + 1) tempoDefault = xs.get ⟨j, hj'⟩ := by
            simp [List.getD_eq_getElem?_getD, List.getElem?_eq_getElem hj']
          rw [hget]
          exact (List.pairwise_cons.mp hs).1 _ (xs.get_mem j hj')

/-- A note position inside segment i of the accumulated, sorted tempo
list receives the segment-i formula of the code. -/
theorem noteNewTime_segment : ∀ (ts : List Tempo) (a : ℚ) (p : Int) (i : Nat),
    List.Pairwise (fun x y => x.xml_position ≤ y.xml_position) ts →
    i + 1 < ts.length →
    (ts.getD i tempoDefault).xml_position ≤ p →
    p < (ts.getD (i + 1) tempoDefault).xml_position →
    noteNewTime (assignTempoTimes a ts) p =
      ((assignTempoTimes a ts).getD i tempoDefault).time_position +
        ((p : ℚ) - ((ts.getD i tempoDefault).xml_position : ℚ)) /
          ((ts.getD i tempoDefault).qpm * 60 /
            ((ts.getD i tempoDefault).divisions_at_time : ℚ))
  | [], _, _, i, _, h, _, _ => absurd h (by simp)
  | [_], _, _, i, _, h, _, _ => absurd h (by simp)
  | t :: t2 :: rest, a, p, 0, _, _, h1, h2 => by
      rw [assign_cons_cons,
        noteNewTime_hit _ _ _ (assign_ne_nil _ _ _)
          (by rw [assign_getD_zero]; exact ⟨h1, h2⟩)]
      rfl
  | t :: t2 :: rest, a, p, i + 1, hs, h, h1, h2 => by
      have hs' := (List.pairwise_cons.mp hs).2
      have hi : i < (t2 :: rest).length := by
        have := Nat.lt_of_succ_lt_succ h
        omega
      have ht2 : t2.xml_position ≤ p := by
        have hh := sorted_head_le (t2 :: rest) hs' i hi
        exact le_trans hh h1
      rw [assign_cons_cons,
        noteNewTime_skip _ _ _ (assign_ne_nil _ _ _)
          (by rw [assign_getD_zero]
              exact fun hc => absurd hc.2 (not_lt.mpr ht2))]
      exact noteNewTime_segment (t2 :: rest) _ p i hs'
        (Nat.lt_of_succ_lt_succ h) h1 h2

/-- A note position at or beyond the last tempo's position receives the
last segment's formula of the code. -/
theorem noteNewTime_last : ∀ (ts : List Tempo) (a : ℚ) (p : Int),
    List.Pairwise (fun x y => x.xml_position ≤ y.xml_position) ts →
    ts ≠ [] →
    (ts.getD (ts.length - 1) tempoDefault).xml_position ≤ p →
    noteNewTime (assignTempoTimes a ts) p =
      ((assignTempoTimes a ts).getD (ts.length - 1) tempoDefault).time_position +
        ((p : ℚ) - ((ts.getD (ts.length - 1) tempoDefault).xml_position : ℚ)) /
          ((ts.getD (ts.length - 1) tempoDefault).qpm * 60 /
            ((ts.getD (ts.length - 1) tempoDefault).divisions_at_time : ℚ))
  | [], _, _, _, hne, _ => absurd rfl hne
  | [t], _, _, _, _, _ => rfl
  | t :: t2 :: rest, a, p, hs, _, h => by
      have hs' := (List.pairwise_cons.mp hs).2
      have hlast : (t2 :: rest).length - 1 < (t2 :: rest).length := by
        simp
      have ht2 : t2.xml_position ≤ p := by
        have hh := sorted_head_le (t2 :: rest) hs'
          ((t2 :: rest).length - 1) hlast
        exact le_trans hh h
      rw [assign_cons_cons,
        noteNewTime_skip _ _ _ (assign_ne_nil _ _ _)
          (by rw [assign_getD_zero]
              exact fun hc => absurd hc.2 (not_lt.mpr ht2))]
      exact noteNewTime_last (t2 :: rest) _ p hs' (by simp) h

/-- C4: over the xml-sorted tempo list, recalculation stamps index 0 with
time 0 and each successor index with the accumulated increment
`(T[i+1].xml - T[i].xml) / T[i].qpm * 60 / T[i].divisions_at_time`
(fields other than time_position are untouched); a note at tick p inside
segment i gets `T[i].time + (p - T[i].xml) / (T[i].qpm * 60 /
T[i].divisions_at_time)`, and a note at or beyond the final tempo gets
the last segment's formula. -/
theorem c4_recalculate_time_position (ts : List Tempo)
    (hs : List.Pairwise (fun x y => x.xml_position ≤ y.xml_position) ts)
    (hne : ts ≠ []) :
    ((assignTempoTimes 0 ts).getD 0 tempoDefault).time_position = 0 ∧
    (∀ i : Nat,
        ((assignTempoTimes 0 ts).getD i tempoDefault).xml_position =
            (ts.getD i tempoDefault).xml_position ∧
        ((assignTempoTimes 0 ts).getD i tempoDefault).qpm =
            (ts.getD i tempoDefault).qpm ∧
        ((assignTempoTimes 0 ts).getD i tempoDefault).divisions_at_time =
            (ts.getD i tempoDefault).divisions_at_time) ∧
    (∀ i : Nat, i + 1 < ts.length →
        ((assignTempoTimes 0 ts).getD (i + 1) tempoDefault).time_position =
          ((assignTempoTimes 0 ts).getD i tempoDefault).time_position +
            (((ts.getD (i + 1) tempoDefault).xml_position : ℚ) -
                ((ts.getD i tempoDefault).xml_position : ℚ)) /
              (ts.getD i tempoDefault).qpm * 60 /
              ((ts.getD i tempoDefault).divisions_at_time : ℚ)) ∧
    (∀ (p : Int) (i : Nat), i + 1 < ts.length →
        (ts.getD i tempoDefault).xml_position ≤ p →
        p < (ts.getD (i + 1) tempoDefault).xml_position →
        noteNewTime (assignTempoTimes 0 ts) p =
          ((assignTempoTimes 0 ts).getD i tempoDefault).time_position +
            ((p : ℚ) - ((ts.getD i tempoDefault).xml_position : ℚ)) /
              ((ts.getD i tempoDefault).qpm * 60 /
                ((ts.getD i tempoDefault).divisions_at_time : ℚ))) ∧
    (∀ p : Int, (ts.getD (ts.length - 1) tempoDefault).xml_position ≤ p →
        noteNewTime (assignTempoTimes 0 ts) p =
          ((assignTempoTimes 0 ts).getD (ts.length - 1)
              tempoDefault).time_position +
            ((p : ℚ) -
                ((ts.getD (ts.length - 1) tempoDefault).xml_position : ℚ)) /
              ((ts.getD (ts.length - 1) tempoDefault).qpm * 60 /
                ((ts.getD (ts.length - 1)
                    tempoDefault).divisions_at_time : ℚ))) := by
  refine ⟨?_, fun i => assign_fields ts 0 i, fun i h => assign_step ts 0 i h,
    fun p i h h1 h2 => noteNewTime_segment ts 0 p i hs h h1 h2,
    fun p h => noteNewTime_last ts 0 p hs hne h⟩
  cases ts with
  | nil => exact absurd rfl hne
  | cons t rest => rw [assign_getD_zero]

/-- Witness for C4 on the concrete two-tempo list: index 0 is stamped
with time 0, and a note at tick 2 (inside segment 0) gets the segment-0
formula. -/
theorem c4_witness :
    ((assignTempoTimes 0 c4Tempos).getD 0 tempoDefault).time_position = 0 ∧
    noteNewTime (assignTempoTimes 0 c4Tempos) 2 =
      ((assignTempoTimes 0 c4Tempos).getD 0 tempoDefault).time_position +
        (((2 : Int) : ℚ) - ((c4Tempos.getD 0 tempoDefault).xml_position : ℚ)) /
          ((c4Tempos.getD 0 tempoDefault).qpm * 60 /
            ((c4Tempos.getD 0 tempoDefault).divisions_at_time : ℚ)) :=
  ⟨(c4_recalculate_time_position c4Tempos (by decide) (by decide)).1,
   (c4_recalculate_time_position c4Tempos (by decide) (by decide)).2.2.2.1
     2 0 (by decide) (by decide) (by decide)⟩

end MXP
